import Mathlib

/-!
Verification of the rule-engine core of the HackWithBay financial-agent
repository: a shallow embedding in Lean 4 of

* `app/agents/validator.py` (`_json_get`, `_as_number`, `_compare`,
  `RuleValidator.run`),
* `app/policy/dsl.py` (`rule_from_clause`, `_guess_event`),
* `app/policy/store.py` (`write_policy_bundle`, `load_rules`, `get_rules_for`),
* `app/agents/compiler.py` + `app/graph/build.py` (`node_compile`),
* `app/server.py` (`post_fact`, `stream_violations`),

together with theorems settling the spec's testable properties.

Modelling conventions:
* Python runtime values that flow through the engine are modelled by `Value`
  (`None`, `bool`, numbers, `str`, `list`).  Python `int`/`float` are both
  modelled by `ℚ` (the decimals appearing in rules and payloads are exact);
  Python `bool` participates in numeric comparison as 0/1, as in CPython.
  Dict-valued operands do not occur in the engine's data and are not modelled.
* Fallible Python expressions (comparisons that can raise `TypeError`) are
  embedded in `Except String`; an `.error` models a raised exception.
* `uuid.uuid4()` and `time.strftime(...)` are modelled as parameters
  (`genId : ℕ → String`, `now : String`) supplied by the environment.
-/

/-- A Python runtime value as used by the validator (`None`, `bool`,
`int`/`float` collapsed to `ℚ`, `str`, `list`). -/
inductive Value where
  | null : Value
  | bool : Bool → Value
  | num : ℚ → Value
  | str : String → Value
  | list : List Value → Value

/-- `v is None` (Python identity test against the `None` singleton). -/
def Value.isNull : Value → Bool
  | .null => true
  | _ => false

/-- Python truthiness (`bool(v)`): `None`, `False`, `0`, `""`, `[]` are
falsy, everything else truthy. -/
def pyTruthy : Value → Bool
  | .null => false
  | .bool b => b
  | .num q => decide (q ≠ 0)
  | .str s => decide (s ≠ "")
  | .list xs => !xs.isEmpty

/-- ASCII lower-casing (Python `str.lower()` on the engine's ASCII data),
written over the character list so it kernel-reduces. -/
def lowerStr (s : String) : String := ⟨s.data.map Char.toLower⟩

/-- Python `str.strip()`: drop leading and trailing whitespace. -/
def trimStr (s : String) : String :=
  ⟨((s.data.dropWhile Char.isWhitespace).reverse.dropWhile Char.isWhitespace).reverse⟩

/-- Python `s.endswith(c)` for a single character. -/
def endsWithChar (s : String) (c : Char) : Bool := s.data.getLast? == some c

/-- Python `s.replace(c, "")` for a single character: remove every
occurrence. -/
def removeChar (s : String) (c : Char) : String := ⟨s.data.filter (fun d => d ≠ c)⟩

/-- Python `s.replace(a, b)` for single characters. -/
def mapChar (s : String) (a b : Char) : String :=
  ⟨s.data.map (fun c => if c = a then b else c)⟩

/-- Division of a rational by 100 (Python `float(s)/100.0`), written with
`mkRat` so it kernel-reduces; `divBy100_eq` proves it is `q / 100`. -/
def divBy100 (q : ℚ) : ℚ := mkRat q.num (q.den * 100)

mutual
/-- Python `==` on `Value` (never raises).  `True == 1` and `1 == 1.0` hold
in CPython, hence the bool/num cross cases. -/
def pyEq : Value → Value → Bool
  | .null, .null => true
  | .bool a, .bool b => a == b
  | .bool a, .num q => decide ((if a then (1 : ℚ) else 0) = q)
  | .num q, .bool b => decide (q = (if b then (1 : ℚ) else 0))
  | .num a, .num b => a == b
  | .str a, .str b => a == b
  | .list xs, .list ys => pyEqList xs ys
  | _, _ => false

/-- Pointwise Python `==` on lists. -/
def pyEqList : List Value → List Value → Bool
  | [], [] => true
  | x :: xs, y :: ys => pyEq x y && pyEqList xs ys
  | _, _ => false
end

/-- The numeric view CPython uses for ordering: numbers are themselves,
bools are 0/1, everything else is not a number. -/
def pyNumOf : Value → Option ℚ
  | .num q => some q
  | .bool b => some (if b then 1 else 0)
  | _ => Option.none

/-- Python `<` (raises `TypeError` on unordered cross-type operands; list
ordering never occurs in this engine's data and is modelled as the same
`TypeError`). -/
def pyLt (a b : Value) : Except String Bool :=
  match pyNumOf a, pyNumOf b with
  | some x, some y => .ok (decide (x < y))
  | _, _ =>
    match a, b with
    | .str s, .str t => .ok (decide (s.data < t.data))
    | _, _ => .error "TypeError: unorderable operand types"

/-- Python `<=` (raises `TypeError` on unordered cross-type operands). -/
def pyLe (a b : Value) : Except String Bool :=
  match pyNumOf a, pyNumOf b with
  | some x, some y => .ok (decide (x ≤ y))
  | _, _ =>
    match a, b with
    | .str s, .str t => .ok (decide (s.data ≤ t.data))
    | _, _ => .error "TypeError: unorderable operand types"

/-- `needle` occurs as a contiguous substring of `hay` (Python
`needle in hay` for strings). -/
def strContainsSub (hay needle : String) : Bool :=
  hay.toList.tails.any (fun u => needle.toList.isPrefixOf u)

/-- Python `x in c`: list membership via `==`, substring test for strings,
`TypeError` when `c` is not iterable (or when a string is probed with a
non-string). -/
def pyIn (x c : Value) : Except String Bool :=
  match c with
  | .list ys => .ok (ys.any (fun y => pyEq x y))
  | .str t =>
    match x with
    | .str s => .ok (strContainsSub t s)
    | _ => .error "TypeError: in <string> requires string as left operand"
  | _ => .error "TypeError: argument is not iterable"

/-- Python `c or []`: `c` itself when truthy, else the empty list
(models the `(rhs or [])` guards in `_compare`). -/
def orEmptyList (c : Value) : Value :=
  if pyTruthy c then c else .list []

/-- `_compare(op, lhs, rhs)` from `app/agents/validator.py`: the comparison
DSL.  `op` is defaulted to `"eq"` when falsy (`op or "eq"`) and lower-cased;
a `None` operand short-circuits to eq/neq or `False`; otherwise the operator
table is applied.  An `.error` result models a raised Python exception. -/
def pyCompare (op : String) (lhs rhs : Value) : Except String Bool :=
  let o := lowerStr (if op = "" then "eq" else op)
  if lhs.isNull || rhs.isNull then
    if o = "eq" || o = "==" then .ok (pyEq lhs rhs)
    else if o = "neq" || o = "!=" then .ok (!pyEq lhs rhs)
    else .ok false
  else if o = "eq" then .ok (pyEq lhs rhs)
  else if o = "neq" then .ok (!pyEq lhs rhs)
  else if o = "lte" || o = "le" then pyLe lhs rhs
  else if o = "gte" || o = "ge" then pyLe rhs lhs
  else if o = "lt" then pyLt lhs rhs
  else if o = "gt" then pyLt rhs lhs
  else if o = "in" then pyIn lhs (orEmptyList rhs)
  else if o = "not_in" then (pyIn lhs (orEmptyList rhs)).map (fun b => !b)
  else if o = "contains" then
    match lhs, rhs with
    | .list xs, _ => .ok (xs.any (fun y => pyEq rhs y))
    | .str s, .str t => .ok (strContainsSub (lowerStr s) (lowerStr t))
    | _, _ => .ok false
  else if o = "prohibits" then (pyIn lhs (orEmptyList rhs)).map (fun b => !b)
  else if o = "requires" then .ok (pyTruthy lhs)
  else .ok (pyEq lhs rhs)

/-- Digit run to its decimal value. -/
def digitsToNat (cs : List Char) : ℕ :=
  cs.foldl (fun a c => a * 10 + (c.toNat - 48)) 0

/-- Unsigned decimal literal (`"2"`, `"2.00"`, `".5"`, `"2."`) to `ℚ`.
Models CPython `float()` on the plain decimal literals this engine's data
contains; exotic float syntax (exponents, `inf`, underscores) is out of the
engine's data and parses to `Option.none` (i.e. `float()` would raise). -/
def parseUnsignedDec (cs : List Char) : Option ℚ :=
  match cs.splitOn '.' with
  | [ip] =>
    if !ip.isEmpty && ip.all Char.isDigit then
      some (mkRat (Int.ofNat (digitsToNat ip)) 1)
    else Option.none
  | [ip, fp] =>
    if !(ip.isEmpty && fp.isEmpty) && ip.all Char.isDigit && fp.all Char.isDigit then
      some (mkRat (Int.ofNat (digitsToNat (ip ++ fp))) (10 ^ fp.length))
    else Option.none
  | _ => Option.none

/-- Signed decimal literal to `ℚ` (CPython `float(s)` on the already-stripped
string, `Option.none` when `float()` would raise `ValueError`). -/
def parseDec (s : String) : Option ℚ :=
  match s.toList with
  | '+' :: rest => parseUnsignedDec rest
  | '-' :: rest => (parseUnsignedDec rest).map (fun q => mkRat (-q.num) q.den)
  | cs => parseUnsignedDec cs

/-- `_as_number(v, unit)` from `app/agents/validator.py`: numbers (and bools,
which are `int` instances in CPython) pass through; strings are stripped,
then if the unit is `"%"` or the string ends with `"%"` every `"%"` is
removed and the parse is divided by 100, else the string is parsed plainly;
anything else (or a parse failure) yields `Option.none`. -/
def asNumber (v : Value) (unit : Option String) : Option ℚ :=
  match v with
  | .num q => some q
  | .bool b => some (if b then 1 else 0)
  | .str s0 =>
    let s := trimStr s0
    if unit = some "%" || endsWithChar s '%' then
      (parseDec (removeChar s '%')).map divBy100
    else parseDec s
  | _ => Option.none

/-- `_json_get(payload, jsonpath)` from `app/agents/validator.py`: supports
only `$.<key>`; anything else resolves to `None`, as does a missing key. -/
def jsonGet (payload : List (String × Value)) (jsonpath : String) : Value :=
  if ['$', '.'].isPrefixOf jsonpath.data then
    match payload.lookup (jsonpath.drop 2) with
    | some v => v
    | Option.none => .null
  else .null

/-- Python `a or b` on an optional string (`None` and `""` are falsy). -/
def pyOrS (a : Option String) (b : String) : String :=
  match a with
  | some s => if s = "" then b else s
  | Option.none => b

/-- Python `a or b` on values (`a` when truthy, else `b`). -/
def pyOrV (a b : Value) : Value :=
  if pyTruthy a then a else b

/-- `Evidence` from `app/models.py`. -/
structure Evidence where
  doc : String
  page : Option ℤ := Option.none
  bbox : Option (List ℚ) := Option.none
  text_snippet : Option String := Option.none
  hash : Option String := Option.none

/-- `ClauseFrame` from `app/models.py`.  `value` is `Optional[Any]`,
modelled as `Value` with `Value.null` for absence; the traceability field
`raw` (an arbitrary dict read by nothing in the engine) is not modelled. -/
structure ClauseFrame where
  id : String
  subject : String
  obligation : String
  «attribute» : Option String := Option.none
  comparator : Option String := Option.none
  value : Value := .null
  unit : Option String := Option.none
  conditions : Option (List String) := Option.none
  effective_start : Option String := Option.none
  effective_end : Option String := Option.none
  confidence : Option ℚ := Option.none
  evidence : Evidence

/-- The `check` dict built by `rule_from_clause` in `app/policy/dsl.py`:
always exactly the keys `op`, `lhs`, `rhs`, `unit`, so it is modelled as a
structure.  The same shape is the `expected` record of a `Violation`. -/
structure Check where
  op : String
  lhs : String
  rhs : Value
  unit : Option String

/-- `PolicyRule` from `app/models.py`.  `selector` is a dict, modelled as an
association list; the free-text `comments` field (built by f-string
interpolation and read by nothing in the engine) is not modelled. -/
structure PolicyRule where
  id : String
  selector : List (String × Value)
  check : Check
  on_events : List String
  severity : String := "HIGH"
  evidence : Evidence

/-- `FactEvent` from `app/models.py`: a type string and a payload dict. -/
structure FactEvent where
  type : String
  payload : List (String × Value)

/-- `Violation` from `app/models.py`.  `subject` is typed `str` in the
source model; the resolved subject is carried as a `Value` here (in all the
engine's data it is a string). -/
structure Violation where
  id : String
  rule_id : String
  event_type : String
  subject : Value
  expected : Check
  actual : List (String × Value)
  severity : String
  evidence : Evidence
  detected_at : String

/-- `_PRIO_ATTRS` from `app/policy/dsl.py`. -/
def prioAttrs : List String :=
  ["fee", "rate", "report", "deadline", "sector", "prohibit", "ltv", "collateral", "notice"]

/-- `_guess_event(cf)` from `app/policy/dsl.py`: keyword scan over the
lower-cased obligation and attribute. -/
def guessEvent (cf : ClauseFrame) : List String :=
  let ob := lowerStr (pyOrS (some cf.obligation) "")
  let attr := lowerStr (pyOrS cf.«attribute» "")
  if strContainsSub attr "fee" || strContainsSub ob "fee" then ["fee_post"]
  else if strContainsSub ob "report" || strContainsSub attr "deadline" then ["report_delivered"]
  else if strContainsSub ob "prohibit" || strContainsSub attr "sector"
      || strContainsSub attr "allocation" then ["trade_allocated"]
  else if strContainsSub ob "notify" || strContainsSub attr "notice" then
    ["sideletter_ingested", "amendment_ingested"]
  else ["data_event"]

/-- `rule_from_clause(cf)` from `app/policy/dsl.py`. -/
def ruleFromClause (cf : ClauseFrame) : PolicyRule :=
  let attr := lowerStr (pyOrS cf.«attribute» (pyOrS (some cf.obligation) "value"))
  let lhs :=
    if strContainsSub attr "fee" then "$.fee_rate"
    else if strContainsSub attr "report" || strContainsSub attr "deadline" then
      "$.report_delay_days"
    else if strContainsSub attr "sector" || strContainsSub attr "allocation" then "$.sector"
    else if strContainsSub attr "ltv" then "$.ltv_ratio"
    else if strContainsSub attr "notice" then "$.notice_sent"
    else "$." ++ mapChar attr ' ' '_'
  { id := "R-" ++ cf.id
    selector := [("subject.eq", Value.str cf.subject)]
    check := { op := lowerStr (pyOrS cf.comparator "expr"), lhs := lhs,
               rhs := cf.value, unit := cf.unit }
    on_events := guessEvent cf
    severity :=
      if prioAttrs.any (fun k => strContainsSub (lowerStr (pyOrS cf.«attribute» "")) k) then "HIGH"
      else "MEDIUM"
    evidence := cf.evidence }

/-- The persisted rule bundle (`out/policy.yaml`): the YAML round-trip of
`write_policy_bundle` / `load_rules` in `app/policy/store.py` is modelled
as the stored rule list itself (`policy_id` and `generated_at` metadata are
not read by any consumer of `load_rules`). -/
def StoreState := List PolicyRule

/-- `write_policy_bundle(rules)` from `app/policy/store.py`: full replace of
the persisted bundle. -/
def writePolicyBundle (rules : List PolicyRule) : StoreState := rules

/-- `load_rules()` from `app/policy/store.py` applied to a store that holds
a written bundle. -/
def loadRules (st : StoreState) : List PolicyRule := st

/-- `get_rules_for(event_type, subject)` from `app/policy/store.py`:
re-loads the bundle and filters by event membership and exact selector
subject match (`selector.get("subject.eq") == subject`, with a missing key
reading as `None`). -/
def getRulesFor (st : StoreState) (event_type : String) (subject : Value) : List PolicyRule :=
  (loadRules st).filter fun r =>
    r.on_events.contains event_type
      && pyEq ((r.selector.lookup "subject.eq").getD .null) subject

/-- Subject resolution in `RuleValidator.run`
(`ev.payload.get("subject") or ev.payload.get("investor") or "UNKNOWN"`). -/
def resolveSubject (payload : List (String × Value)) : Value :=
  pyOrV ((payload.lookup "subject").getD .null)
    (pyOrV ((payload.lookup "investor").getD .null) (.str "UNKNOWN"))

/-- The `Violation(...)` construction inside `RuleValidator.run`:
`expected` echoes the rule's check (op, lhs, rhs, unit), `actual` echoes the
full payload; the uuid-based id and the UTC timestamp come from the
environment (`genId`, `now`). -/
def mkViolation (genId : ℕ → String) (now : String) (n : ℕ) (r : PolicyRule)
    (ev : FactEvent) (subject : Value) : Violation :=
  { id := genId n
    rule_id := r.id
    event_type := ev.type
    subject := subject
    expected := { op := r.check.op, lhs := r.check.lhs, rhs := r.check.rhs,
                  unit := r.check.unit }
    actual := ev.payload
    severity := r.severity
    evidence := r.evidence
    detected_at := now }

/-- The per-rule loop of `RuleValidator.run`: resolve the left operand by
`_json_get`, try numeric normalization of both sides, compare (normalized
when both sides normalize, raw otherwise), and materialize a `Violation`
when the comparison is not satisfied.  A raised comparison error propagates
(there is no per-rule `try`), aborting the remaining rules.  `n` counts the
violations already produced (it indexes `genId`). -/
def runRules (genId : ℕ → String) (now : String) (ev : FactEvent) (subject : Value) :
    List PolicyRule → ℕ → Except String (List Violation)
  | [], _ => .ok []
  | r :: rest, n => do
    let lhsVal := jsonGet ev.payload r.check.lhs
    let rhsVal := r.check.rhs
    let u := r.check.unit
    let ok ←
      match asNumber lhsVal u, asNumber rhsVal u with
      | some l, some rr => pyCompare r.check.op (.num l) (.num rr)
      | _, _ => pyCompare r.check.op lhsVal rhsVal
    if ok then runRules genId now ev subject rest n
    else do
      let tail ← runRules genId now ev subject rest (n + 1)
      .ok (mkViolation genId now n r ev subject :: tail)

/-- `RuleValidator.run(rule_index, fact_event)` from
`app/agents/validator.py`, for an already well-shaped `FactEvent`
(the pydantic parse of the raw dict is modelled at the server layer):
resolve the subject, fetch candidates from the store, evaluate each. -/
def runValidator (st : StoreState) (ev : FactEvent) (genId : ℕ → String)
    (now : String) : Except String (List Violation) :=
  let subject := resolveSubject ev.payload
  runRules genId now ev subject (getRulesFor st ev.type subject) 0

/-- A raw clause dict as received by `node_compile` in `app/graph/build.py`
before pydantic validation: every `ClauseFrame` field possibly absent. -/
structure RawClause where
  id : Option String := Option.none
  subject : Option String := Option.none
  obligation : Option String := Option.none
  «attribute» : Option String := Option.none
  comparator : Option String := Option.none
  value : Value := .null
  unit : Option String := Option.none
  evidence : Option Evidence := Option.none

/-- `ClauseFrame(**f)`: the pydantic parse in `node_compile`.  `id`,
`subject`, `obligation` and `evidence` are required fields; a missing one
raises a `ValidationError` (modelled as `.error`). -/
def parseClauseFrame (f : RawClause) : Except String ClauseFrame :=
  match f.id, f.subject, f.obligation, f.evidence with
  | some i, some s, some ob, some evd =>
    .ok { id := i, subject := s, obligation := ob, «attribute» := f.«attribute»,
          comparator := f.comparator, value := f.value, unit := f.unit,
          evidence := evd }
  | _, _, _, _ => .error "ValidationError: missing required ClauseFrame field"

/-- `node_compile` from `app/graph/build.py` composed with
`PolicyCompiler.run` from `app/agents/compiler.py`: parse every frame
(`[ClauseFrame(**f) for f in ...]` — the first pydantic error aborts the
whole batch), compile each with `rule_from_clause`, persist the bundle.
Returns the new store state. -/
def nodeCompile (raws : List RawClause) : Except String StoreState := do
  let frames ← raws.mapM parseClauseFrame
  .ok (writePolicyBundle (frames.map ruleFromClause))

/-- A raw fact-event body as received by `post_fact` in `app/server.py`:
the `type` and `payload` keys may each be absent.  (A present `payload` is
modelled as a dict, the only shape the engine's data contains.) -/
structure RawEvent where
  typeField : Option String := Option.none
  payloadField : Option (List (String × Value)) := Option.none

/-- The ledger append of `node_explain_emit` in `app/graph/build.py`: when
there are violations, each is enriched with a summary and appended as one
line; `encode` models `json.dumps` of the enriched record. -/
def emitLedger (ledger : List String) (vios : List Violation)
    (encode : Violation → String) : List String :=
  if vios.isEmpty then ledger else ledger ++ vios.map encode

/-- Outcome of a `post_fact` call: HTTP 400 (`HTTPException`), a propagated
engine exception (HTTP 500), or the 200 response carrying the violations. -/
inductive PostFactResult where
  | badRequest : String → PostFactResult
  | serverError : String → PostFactResult
  | ok : List Violation → PostFactResult

/-- `post_fact(event)` from `app/server.py` composed with the data graph
(`node_validate` then `node_explain_emit` from `app/graph/build.py`):
reject with 400 unless both `type` and `payload` keys are present, else
validate and append any violations to the ledger.  Returns the response
outcome and the new ledger contents. -/
def postFact (st : StoreState) (ledger : List String) (ev : RawEvent)
    (genId : ℕ → String) (now : String) (encode : Violation → String) :
    PostFactResult × List String :=
  match ev.typeField, ev.payloadField with
  | some t, some p =>
    match runValidator st { type := t, payload := p } genId now with
    | .ok vios => (.ok vios, emitLedger ledger vios encode)
    | .error e => (.serverError e, ledger)
  | _, _ => (.badRequest "Event must include ('type', 'payload')", ledger)

/-- The watermark adjustment at the top of each `event_gen` iteration in
`stream_violations` (`app/server.py`): `if last_pos == 0: last_pos = size
if tail else 0`. -/
def resetPos (tailMode : Bool) (pos len : ℕ) : ℕ :=
  if pos = 0 then (if tailMode then len else 0) else pos

/-- One atomic iteration of the `event_gen` polling loop in
`stream_violations`, abstracted to whole ledger entries: the ledger file is
the list of lines ever appended, a file size is an entry count, and the
size probe plus the read of the new byte range happen atomically.  Returns
the indices of the entries emitted by this poll and the new watermark. -/
def pollEmit (tailMode : Bool) (pos len : ℕ) : List ℕ × ℕ :=
  if resetPos tailMode pos len < len then
    (List.range' (resetPos tailMode pos len) (len - resetPos tailMode pos len), len)
  else ([], resetPos tailMode pos len)

/-- A subscriber's whole polling run over a trace of observed ledger sizes
(one size per poll; the ledger is append-only, so a trace is monotone):
the concatenation of the entry indices delivered to that subscriber. -/
def runSub (tailMode : Bool) : ℕ → List ℕ → List ℕ
  | _, [] => []
  | pos, len :: rest =>
    (pollEmit tailMode pos len).1 ++ runSub tailMode (pollEmit tailMode pos len).2 rest

/-- The Scenario A/B rule: `{op: lte, lhs: $.fee_rate, rhs: 0.0175}` with
selector `{subject.eq: "Institution A"}` and `on_events ["fee_post"]`
(0.0175 = 7/400). -/
def feeRule : PolicyRule :=
  { id := "R-1"
    selector := [("subject.eq", Value.str "Institution A")]
    check := { op := "lte", lhs := "$.fee_rate", rhs := .num (mkRat 7 400), unit := Option.none }
    on_events := ["fee_post"]
    severity := "HIGH"
    evidence := { doc := "doc.pdf" } }

/-- The Scenario A/B fact event `{type: "fee_post",
payload: {subject: "Institution A", fee_rate: x}}`. -/
def feeEvent (x : ℚ) : FactEvent :=
  { type := "fee_post"
    payload := [("subject", .str "Institution A"), ("fee_rate", .num x)] }

/-- Membership of `x` in `c` read as a list (`false` for non-lists): the
spec's notion of "left is present in right" for the prohibits check. -/
def memberOfList (x c : Value) : Bool :=
  match c with
  | .list ys => ys.any (fun y => pyEq x y)
  | _ => false

/-- The management-fee clause of the demo document, used as a concrete
compilation input. -/
def cfFee : ClauseFrame :=
  { id := "1"
    subject := "Institution A"
    obligation := "pay"
    «attribute» := some "management_fee"
    comparator := some "lte"
    value := .num (mkRat 7 400)
    unit := some "%"
    evidence := { doc := "LPA.pdf" } }

/-- A well-formed raw clause (all required fields present). -/
def goodRaw : RawClause :=
  { id := some "1"
    subject := some "Institution A"
    obligation := some "pay"
    «attribute» := some "management_fee"
    comparator := some "lte"
    value := .num (mkRat 7 400)
    unit := some "%"
    evidence := some { doc := "LPA.pdf" } }

/-- A malformed raw clause: the required `subject` field is missing. -/
def badRaw : RawClause :=
  { id := some "2"
    obligation := some "report"
    evidence := some { doc := "LPA.pdf" } }

/-- A rule whose comparison raises: operator `in` with a numeric (hence
non-iterable, truthy) right-hand side. -/
def inRule : PolicyRule :=
  { id := "R-in"
    selector := [("subject.eq", Value.str "S")]
    check := { op := "in", lhs := "$.x", rhs := .num 5, unit := Option.none }
    on_events := ["data_event"]
    severity := "MEDIUM"
    evidence := { doc := "d.pdf" } }

/-- A rule after `inRule` in the bundle that would itself produce a
violation (eq against a different constant). -/
def eqRule : PolicyRule :=
  { id := "R-eq"
    selector := [("subject.eq", Value.str "S")]
    check := { op := "eq", lhs := "$.x", rhs := .num 4, unit := Option.none }
    on_events := ["data_event"]
    severity := "MEDIUM"
    evidence := { doc := "d.pdf" } }

/-- The fact event both rules match: payload `x = 3`. -/
def xEvent : FactEvent :=
  { type := "data_event"
    payload := [("subject", .str "S"), ("x", .num 3)] }

theorem divBy100_eq (q : ℚ) : divBy100 q = q / 100 := by
  unfold divBy100
  rw [Rat.mkRat_eq_div]
  push_cast
  rw [div_mul_eq_div_div, Rat.num_div_den]

theorem resetPos_false (pos len : ℕ) : resetPos false pos len = pos := by
  unfold resetPos
  split <;> simp_all

/-- Once the watermark is positive, every later-delivered index is at least
the watermark. -/
theorem runSub_pos_le (tm : Bool) (lens : List ℕ) :
    ∀ pos, 0 < pos → ∀ e ∈ runSub tm pos lens, pos ≤ e := by
  induction lens with
  | nil => intro pos _ e he; simp [runSub] at he
  | cons len rest ih =>
    intro pos hpos e he
    have hreset : resetPos tm pos len = pos := by
      unfold resetPos
      simp [Nat.pos_iff_ne_zero.mp hpos]
    simp only [runSub, pollEmit, hreset] at he
    by_cases hlt : pos < len
    · simp only [if_pos hlt, List.mem_append] at he
      rcases he with he | he
      · exact (List.mem_range'_1.mp he).1
      · exact le_trans (le_of_lt hlt) (ih len (Nat.lt_of_le_of_lt (Nat.zero_le _) hlt) e he)
    · simp only [if_neg hlt, List.nil_append] at he
      exact ih pos hpos e he

/-- Delivered indices are strictly increasing along any trace: together
with `List.Sorted.nodup` this is the no-double-delivery guarantee. -/
theorem runSub_sorted (tm : Bool) (lens : List ℕ) :
    ∀ pos, (runSub tm pos lens).Sorted (· < ·) := by
  induction lens with
  | nil => intro pos; simp [runSub]
  | cons len rest ih =>
    intro pos
    simp only [runSub, pollEmit]
    by_cases hlt : resetPos tm pos len < len
    · simp only [if_pos hlt]
      rw [List.Sorted, List.pairwise_append]
      refine ⟨List.pairwise_lt_range' _ _, ih len, ?_⟩
      intro a ha b hb
      have ha' := List.mem_range'_1.mp ha
      have hb' := runSub_pos_le tm rest len (Nat.lt_of_le_of_lt (Nat.zero_le _) hlt) b hb
      omega
    · simp only [if_neg hlt, List.nil_append]
      exact ih _

/-- A replay-mode subscriber that has already been delivered the first
`pos` entries ends up delivered exactly the prefix of the ledger the last
poll observed, in order. -/
theorem runSub_replay (lens : List ℕ) :
    ∀ pos, List.Chain' (· ≤ ·) (pos :: lens) →
      List.range pos ++ runSub false pos lens = List.range (lens.getLastD pos) := by
  induction lens with
  | nil => intro pos _; simp [runSub]
  | cons len rest ih =>
    intro pos hch
    have hple : pos ≤ len := (List.chain'_cons.mp hch).1
    have hch' : List.Chain' (· ≤ ·) (len :: rest) := (List.chain'_cons.mp hch).2
    simp only [runSub, pollEmit, resetPos_false, List.getLastD_cons]
    by_cases hlt : pos < len
    · simp only [if_pos hlt]
      rw [← List.append_assoc]
      have hjoin : List.range pos ++ List.range' pos (len - pos) = List.range len := by
        rw [List.range_eq_range', List.range_eq_range']
        have h := List.range'_append 0 pos (len - pos) 1
        simp only [Nat.zero_add, Nat.one_mul] at h
        rw [h]
        congr 1
        omega
      rw [hjoin]
      exact ih len hch'
    · have heq : pos = len := Nat.le_antisymm hple (Nat.not_lt.mp hlt)
      simp only [if_neg hlt, List.nil_append]
      rw [heq]
      exact ih len hch'

/-- A tail-mode subscriber never receives an index below the size the
ledger had at its first poll. -/
theorem runSub_tail_lb (len0 : ℕ) (rest : List ℕ) :
    ∀ e ∈ runSub true 0 (len0 :: rest), len0 ≤ e := by
  intro e he
  have hreset : resetPos true 0 len0 = len0 := by simp [resetPos]
  simp only [runSub, pollEmit, hreset, if_neg (lt_irrefl len0), List.nil_append] at he
  by_cases h0 : 0 < len0
  · exact runSub_pos_le true rest len0 h0 e he
  · have : len0 = 0 := by omega
    simp [this]

/-- Claim C1: with the persisted bundle holding exactly `feeRule`, the
validator yields exactly one violation on fee_rate 0.02 (= 1/50), with
`expected.rhs = 0.0175` and `actual` echoing the full payload (so
`actual.fee_rate = 0.02`), and zero violations on fee_rate 0.015
(= 3/200). -/
theorem claim_C1_scenario_AB (genId : ℕ → String) (now : String) :
    runValidator (writePolicyBundle [feeRule]) (feeEvent (mkRat 1 50)) genId now =
      .ok [{ id := genId 0
             rule_id := "R-1"
             event_type := "fee_post"
             subject := .str "Institution A"
             expected := { op := "lte", lhs := "$.fee_rate", rhs := .num (mkRat 7 400),
                           unit := Option.none }
             actual := [("subject", .str "Institution A"), ("fee_rate", .num (mkRat 1 50))]
             severity := "HIGH"
             evidence := { doc := "doc.pdf" }
             detected_at := now }]
    ∧ runValidator (writePolicyBundle [feeRule]) (feeEvent (mkRat 3 200)) genId now = .ok [] :=
  ⟨by rfl, by rfl⟩

/-- Claim C2: with a null operand on either side, `_compare` evaluates
eq/`==` as direct equality and neq/`!=` as direct inequality of the
null-aware values, returns false ("not satisfied") for every other
operator, and never raises. -/
theorem claim_C2_null_handling (op : String) (lhs rhs : Value)
    (h : lhs = Value.null ∨ rhs = Value.null) :
    (∃ b, pyCompare op lhs rhs = .ok b)
    ∧ ((lowerStr (if op = "" then "eq" else op) = "eq"
          ∨ lowerStr (if op = "" then "eq" else op) = "==") →
        pyCompare op lhs rhs = .ok (pyEq lhs rhs))
    ∧ ((lowerStr (if op = "" then "eq" else op) = "neq"
          ∨ lowerStr (if op = "" then "eq" else op) = "!=") →
        pyCompare op lhs rhs = .ok (!pyEq lhs rhs))
    ∧ (lowerStr (if op = "" then "eq" else op) ∉ (["eq", "==", "neq", "!="] : List String) →
        pyCompare op lhs rhs = .ok false) := by
  have hnull : (lhs.isNull || rhs.isNull) = true := by
    rcases h with h | h <;> subst h <;> simp [Value.isNull]
  have hpy : pyCompare op lhs rhs =
      (if lowerStr (if op = "" then "eq" else op) = "eq"
          ∨ lowerStr (if op = "" then "eq" else op) = "==" then
         Except.ok (pyEq lhs rhs)
       else if lowerStr (if op = "" then "eq" else op) = "neq"
          ∨ lowerStr (if op = "" then "eq" else op) = "!=" then
         Except.ok (!pyEq lhs rhs)
       else Except.ok false) := by
    simp only [pyCompare, hnull, if_true, Bool.or_eq_true, decide_eq_true_eq]
  refine ⟨?_, ?_, ?_, ?_⟩
  · rw [hpy]
    split_ifs <;> exact ⟨_, rfl⟩
  · intro ho; rw [hpy, if_pos ho]
  · intro ho
    rw [hpy, if_neg, if_pos ho]
    rcases ho with ho | ho <;> simp [ho]
  · intro ho
    simp only [List.mem_cons, List.mem_singleton, not_or] at ho
    rw [hpy, if_neg, if_neg]
    · rintro (h1 | h1) <;> simp [h1] at ho
    · rintro (h1 | h1) <;> simp [h1] at ho

/-- Claim C2 witness: `lt` against a null right operand is "not satisfied"
without raising. -/
theorem claim_C2_null_handling_witness :
    pyCompare "lt" Value.null (Value.num 1) = .ok false :=
  (claim_C2_null_handling "lt" Value.null (Value.num 1) (Or.inl rfl)).2.2.2 (by decide)

/-- With non-null operands, `_compare("prohibits", ...)` reduces to the
negated membership probe `not (lhs in (rhs or []))`. -/
theorem pyCompare_prohibits_eq (lhs rhs : Value) (hl : lhs.isNull = false)
    (hr : rhs.isNull = false) :
    pyCompare "prohibits" lhs rhs = (pyIn lhs (orEmptyList rhs)).map (fun b => !b) := by
  simp only [pyCompare, hl, hr, Bool.or_self, Bool.false_eq_true, if_false]
  rfl

/-- Claim C3 counterexample: a truthy non-container right operand (the
number 5) makes the prohibits comparison raise a `TypeError` instead of
returning true (3 is not a member of 5, so the claim asserts a `true`
return). -/
theorem claim_C3_counterexample :
    pyCompare "prohibits" (Value.num 3) (Value.num 5) =
      .error "TypeError: argument is not iterable" := by rfl

/-- Claim C3 amended: for non-null operands whose right side is a list or
falsy (so the membership probe cannot raise), prohibits returns true
exactly when the left operand is not a member of the right operand read as
a list — hence a violation exactly when it is present. -/
theorem claim_C3_amended (lhs rhs : Value) (hl : lhs.isNull = false)
    (hr : rhs.isNull = false)
    (hc : (∃ xs, rhs = Value.list xs) ∨ pyTruthy rhs = false) :
    pyCompare "prohibits" lhs rhs = .ok (!memberOfList lhs rhs) := by
  rw [pyCompare_prohibits_eq lhs rhs hl hr]
  rcases hc with ⟨xs, rfl⟩ | hfal
  · cases xs <;> simp [orEmptyList, pyTruthy, pyIn, memberOfList, Except.map]
  · cases rhs <;> simp_all [orEmptyList, pyTruthy, pyIn, memberOfList, Except.map,
      Value.isNull]

/-- Claim C3 amended, witness: `"SIC:7372"` is a member of
`["SIC:7372"]`, so prohibits is not satisfied (a violation). -/
theorem claim_C3_amended_witness :
    pyCompare "prohibits" (Value.str "SIC:7372") (Value.list [Value.str "SIC:7372"]) =
      .ok false :=
  claim_C3_amended (Value.str "SIC:7372") (Value.list [Value.str "SIC:7372"])
    rfl rfl (Or.inl ⟨_, rfl⟩)

/-- Claim C4: `_as_number` passes native numbers through unchanged; a
string is percent-normalized (strip `%`, divide by 100) exactly when the
declared unit is `"%"` or the (stripped) string ends with `"%"`, and is
otherwise parsed as a plain number; consequently `"2.00%"` normalizes to
0.02 (= 1/50) and comparing it against 0.0175 (= 7/400) under lte (resp.
gte) compares 0.02 against 0.0175, yielding not-satisfied (resp.
satisfied). -/
theorem claim_C4_numeric_normalization (q : ℚ) (u : Option String) (s : String)
    (u2 : Option String) :
    asNumber (.num q) u = some q
    ∧ ((u2 = some "%" ∨ endsWithChar (trimStr s) '%' = true) →
        asNumber (.str s) u2 =
          (parseDec (removeChar (trimStr s) '%')).map (fun x => x / 100))
    ∧ (¬(u2 = some "%" ∨ endsWithChar (trimStr s) '%' = true) →
        asNumber (.str s) u2 = parseDec (trimStr s))
    ∧ asNumber (.str "2.00%") Option.none = some (mkRat 1 50)
    ∧ pyCompare "lte" (.num (mkRat 1 50)) (.num (mkRat 7 400)) = .ok false
    ∧ pyCompare "gte" (.num (mkRat 1 50)) (.num (mkRat 7 400)) = .ok true := by
  have hfun : divBy100 = fun x : ℚ => x / 100 := funext divBy100_eq
  refine ⟨rfl, ?_, ?_, by rfl, by rfl, by rfl⟩
  · intro h
    have hcond : (decide (u2 = some "%") || endsWithChar (trimStr s) '%') = true := by
      rcases h with h | h <;> simp [h]
    simp only [asNumber, hcond, if_true, hfun]
  · intro h
    rcases not_or.mp h with ⟨h1, h2⟩
    have hcond : (decide (u2 = some "%") || endsWithChar (trimStr s) '%') = false := by
      simp [h1, h2]
    simp only [asNumber, hcond, Bool.false_eq_true, if_false]

/-- Claim C4 witness: the percent branch at the concrete input
`"2.00%"` with no declared unit. -/
theorem claim_C4_numeric_normalization_witness :
    asNumber (.str "2.00%") Option.none =
      (parseDec (removeChar (trimStr "2.00%") '%')).map (fun x => x / 100) :=
  (claim_C4_numeric_normalization 0 Option.none "2.00%" Option.none).2.1
    (Or.inr (by rfl))

/-- Python `==` against a string is exactly structural string equality:
no non-string value compares equal to a string. -/
theorem pyEq_str_iff (v : Value) (s : String) : pyEq v (.str s) = true ↔ v = .str s := by
  cases v <;> simp [pyEq]

/-- Claim C5: every rule in a written bundle is found by `get_rules_for`
under each of its trigger events and its selector subject, and any
(event, subject) pair matched by no rule yields the empty list. -/
theorem claim_C5_index_correctness (rules : List PolicyRule) (r : PolicyRule)
    (s e : String) (hr : r ∈ rules)
    (hsel : (r.selector.lookup "subject.eq").getD .null = Value.str s)
    (he : e ∈ r.on_events) :
    r ∈ getRulesFor (writePolicyBundle rules) e (Value.str s)
    ∧ ∀ e' s' : String,
        (∀ r' ∈ rules, ¬(e' ∈ r'.on_events
            ∧ (r'.selector.lookup "subject.eq").getD .null = Value.str s')) →
        getRulesFor (writePolicyBundle rules) e' (Value.str s') = [] := by
  constructor
  · refine List.mem_filter.mpr ⟨hr, ?_⟩
    rw [Bool.and_eq_true]
    constructor
    · simpa [List.contains, List.elem_iff] using he
    · rw [hsel]
      simp [pyEq]
  · intro e' s' hnone
    refine List.filter_eq_nil_iff.mpr ?_
    intro r' hr'
    have hn := hnone r' hr'
    rw [Bool.and_eq_true]
    rintro ⟨hc, hq⟩
    exact hn ⟨by simpa [List.contains, List.elem_iff] using hc, (pyEq_str_iff _ _).mp hq⟩

/-- Claim C5 witness: the fee rule is indexed under ("fee_post",
"Institution A") and an unmatched pair returns the empty list. -/
theorem claim_C5_index_correctness_witness :
    feeRule ∈ getRulesFor (writePolicyBundle [feeRule]) "fee_post" (Value.str "Institution A")
    ∧ getRulesFor (writePolicyBundle [feeRule]) "report_delivered" (Value.str "Nobody") = [] := by
  have h := claim_C5_index_correctness [feeRule] feeRule "Institution A" "fee_post"
    (List.mem_singleton.mpr rfl) (by rfl) (by simp [feeRule])
  refine ⟨h.1, h.2 "report_delivered" "Nobody" ?_⟩
  intro r' hr'
  rw [List.mem_singleton.mp hr']
  rintro ⟨hc, _⟩
  simp [feeRule] at hc

/-- Claim C6: `rule_from_clause` is pure and deterministic — two
compilations of the same `ClauseFrame` agree on id, selector, check,
on_events and severity — and the derived id is `"R-" + clause id`. -/
theorem claim_C6_compiler_idempotent (cf : ClauseFrame) (r1 r2 : PolicyRule)
    (h1 : r1 = ruleFromClause cf) (h2 : r2 = ruleFromClause cf) :
    r1.id = r2.id ∧ r1.selector = r2.selector ∧ r1.check = r2.check
    ∧ r1.on_events = r2.on_events ∧ r1.severity = r2.severity
    ∧ r1.id = "R-" ++ cf.id := by
  subst h1
  subst h2
  exact ⟨rfl, rfl, rfl, rfl, rfl, rfl⟩

/-- Claim C6 witness: compiling the concrete fee clause twice. -/
theorem claim_C6_compiler_idempotent_witness :
    (ruleFromClause cfFee).id = (ruleFromClause cfFee).id
    ∧ (ruleFromClause cfFee).selector = (ruleFromClause cfFee).selector
    ∧ (ruleFromClause cfFee).check = (ruleFromClause cfFee).check
    ∧ (ruleFromClause cfFee).on_events = (ruleFromClause cfFee).on_events
    ∧ (ruleFromClause cfFee).severity = (ruleFromClause cfFee).severity
    ∧ (ruleFromClause cfFee).id = "R-" ++ cfFee.id :=
  claim_C6_compiler_idempotent cfFee (ruleFromClause cfFee) (ruleFromClause cfFee) rfl rfl

/-- Claim C7 (divergence witness): a batch holding one well-formed and one
malformed clause is aborted wholesale by `node_compile` — the pydantic
error from the malformed clause propagates out of the list comprehension,
the well-formed clause's rule is never persisted, and no skipped-clause
count exists anywhere in the result — even though the same well-formed
clause compiles on its own. -/
theorem claim_C7_batch_aborted :
    nodeCompile [goodRaw, badRaw] =
      .error "ValidationError: missing required ClauseFrame field"
    ∧ nodeCompile [goodRaw] = .ok (writePolicyBundle [ruleFromClause cfFee]) :=
  ⟨by rfl, by rfl⟩

/-- Claim C8: a fact event missing `payload` (or `type`) is rejected with
HTTP 400 by `post_fact` before any rule is evaluated: no violations are
produced and the ledger is unchanged. -/
theorem claim_C8_missing_payload_rejected (st : StoreState) (ledger : List String)
    (ev : RawEvent) (genId : ℕ → String) (now : String) (encode : Violation → String)
    (h : ev.payloadField = Option.none ∨ ev.typeField = Option.none) :
    postFact st ledger ev genId now encode =
      (.badRequest "Event must include ('type', 'payload')", ledger) := by
  obtain ⟨tf, pf⟩ := ev
  rcases h with h | h <;> simp only at h <;> subst h
  · cases tf <;> rfl
  · cases pf <;> rfl

/-- Claim C8 witness: the empty body against the fee bundle and a
nonempty ledger. -/
theorem claim_C8_missing_payload_rejected_witness :
    postFact (writePolicyBundle [feeRule]) ["old-entry"]
        { typeField := some "fee_post" } (fun _ => "V") "T" (fun _ => "line") =
      (.badRequest "Event must include ('type', 'payload')", ["old-entry"]) :=
  claim_C8_missing_payload_rejected (writePolicyBundle [feeRule]) ["old-entry"]
    { typeField := some "fee_post" } (fun _ => "V") "T" (fun _ => "line") (Or.inl rfl)

/-- Claim C10: `_compare` raises on some non-null operand pairs (`in`
against a non-container, an ordered comparison between a string and a
number), and `RuleValidator.run` has no per-rule handler, so one raising
rule aborts validation of the whole event — the later `eqRule`, which on
its own yields a violation, is never evaluated. -/
theorem claim_C10_uncaught_comparison_error (genId : ℕ → String) (now : String) :
    pyCompare "in" (Value.num 3) (Value.num 5) =
      .error "TypeError: argument is not iterable"
    ∧ pyCompare "lte" (Value.str "abc") (Value.num 1) =
      .error "TypeError: unorderable operand types"
    ∧ runValidator (writePolicyBundle [inRule, eqRule]) xEvent genId now =
      .error "TypeError: argument is not iterable"
    ∧ runValidator (writePolicyBundle [eqRule]) xEvent genId now =
      .ok [mkViolation genId now 0 eqRule xEvent (.str "S")] :=
  ⟨by rfl, by rfl, by rfl, by rfl⟩

/-- Claim C9: along any append-only trace of ledger sizes, no entry index
is delivered twice to a subscriber in either mode; a replay-mode
subscriber (`tail=false`) is delivered exactly the entries of the ledger
prefix its last poll observed, in append order (hence eventually every
entry ever appended); and a tail-mode subscriber whose first poll sees at
least the `lsub` entries present when it subscribed is delivered only
indices at or past that point (only entries appended after it
subscribed). -/
theorem claim_C9_stream_delivery (lens : List ℕ) (hmono : lens.Chain' (· ≤ ·))
    (lsub len0 : ℕ) (rest : List ℕ) (hsub : lsub ≤ len0) :
    (∀ tm : Bool, (runSub tm 0 lens).Nodup)
    ∧ runSub false 0 lens = List.range (lens.getLastD 0)
    ∧ ∀ e ∈ runSub true 0 (len0 :: rest), lsub ≤ e := by
  have hch : List.Chain' (fun a b => a ≤ b) ((0 : ℕ) :: lens) := by
    cases lens with
    | nil => simp
    | cons a l => exact List.chain'_cons.mpr ⟨Nat.zero_le a, hmono⟩
  refine ⟨fun tm => (runSub_sorted tm lens 0).nodup, ?_, fun e he =>
    le_trans hsub (runSub_tail_lb len0 rest e he)⟩
  have h := runSub_replay lens 0 hch
  simpa using h

/-- Claim C9 witness: a concrete growing trace. -/
theorem claim_C9_stream_delivery_witness :
    (∀ tm : Bool, (runSub tm 0 [1, 2, 2, 4]).Nodup)
    ∧ runSub false 0 [1, 2, 2, 4] = List.range ([1, 2, 2, 4].getLastD 0)
    ∧ ∀ e ∈ runSub true 0 (3 :: [5]), 2 ≤ e :=
  claim_C9_stream_delivery [1, 2, 2, 4]
    (List.chain'_cons.mpr ⟨by omega, List.chain'_cons.mpr ⟨by omega,
      List.chain'_cons.mpr ⟨by omega, List.chain'_singleton 4⟩⟩⟩) 2 3 [5] (by omega)
